import Mathlib

/-!
A verification development for the BIP32/BIP49/BIP84 extended-key codec
(`bip32/src/enc.rs` of the riemann-rs repository).

Bytes are modelled as `Nat` values (well-formed inputs carry `< 256` bounds),
byte streams as `List Nat`, and the `std::io::Read`-based decoding functions as
functions from the remaining stream to `Except Bip32Error (result × rest)`.
Rust writers targeting a `Vec<u8>` never fail, so the writers are pure
functions producing byte lists.
-/

namespace Bip32

/-- Format hint: `Legacy | Compatibility | SegWit` (from `primitives::Hint`). -/
inductive Hint where
  | Legacy
  | Compatibility
  | SegWit
deriving DecidableEq

/-- The error kinds reachable from the codec in `enc.rs`.

`BadB58Checksum`, `BadXPrivVersionBytes` and `BadPadding` are the variants the
code in `enc.rs` constructs directly.  `Base58DecodeError` models the error the
`bs58` decoder reports on a character outside the Base58 alphabet, wrapped by
the `?` at the top of `decode_b58_check`.  `TruncatedStream` models the
`std::io` error produced by `read_exact` on a short buffer, wrapped by `?`.
`BackendFailed` models a backend-defined parse error from
`from_privkey_array` / `from_pubkey_array` (the error enum itself lives outside
`src/`; the spec lists these kinds in section 7). -/
inductive Bip32Error where
  | BadB58Checksum
  | Base58DecodeError
  | BadXPrivVersionBytes (bytes : List Nat)
  | BadPadding (b : Nat)
  | TruncatedStream
  | BackendFailed
deriving DecidableEq

/-- Result of a Rust call that can also panic.  `panicked` models an actual
Rust panic (an unguarded `usize` underflow in debug mode, or the out-of-bounds
slice it causes in release mode) — an abnormal termination that is neither an
`Ok` nor an `Err`. -/
inductive Outcome (α : Type) where
  | ok (a : α)
  | err (e : Bip32Error)
  | panicked
deriving DecidableEq

instance {e a : Type} [DecidableEq e] [DecidableEq a] : DecidableEq (Except e a) :=
  fun x y =>
  match x, y with
  | Except.ok u, Except.ok w =>
    if h : u = w then Decidable.isTrue (by rw [h])
    else Decidable.isFalse (by simp [h])
  | Except.ok u, Except.error f => Decidable.isFalse (by simp)
  | Except.error f, Except.ok u => Decidable.isFalse (by simp)
  | Except.error f, Except.error g =>
    if h : f = g then Decidable.isTrue (by rw [h])
    else Decidable.isFalse (by simp [h])

/-- Modelled from the spec: the curve backend (`Secp256k1Backend`, outside
`src/`) is an opaque capability.  `from_privkey_array` / `from_pubkey_array`
are static methods of the backend type: they accept or reject a 32-byte scalar
/ 33-byte point, independently of the optional borrowed backend reference.  A
key's private/public material is modelled by its serialized byte form, so that
parse and serialize are mutually inverse as the spec's adapter contract
(section 4.4) requires. -/
structure Backend where
  privkeyOk : List Nat → Bool
  pubkeyOk : List Nat → Bool

/-- `XKeyInfo`: depth, parent fingerprint (4 bytes), child index (u32),
chain code (32 bytes), format hint.  `KeyFingerprint` and `ChainCode` are
newtypes over fixed-size byte arrays with no internal invariants, so they are
modelled by their byte lists directly. -/
structure XKeyInfo where
  depth : Nat
  parent : List Nat
  index : Nat
  chain_code : List Nat
  hint : Hint
deriving DecidableEq

/-- `GenericXPriv`: key info plus the 32-byte private scalar (the serialized
form of `GenericPrivkey.key`; the optional borrowed backend reference carries
no data relevant to the codec and is not serialized). -/
structure GenericXPriv where
  info : XKeyInfo
  privkey : List Nat
deriving DecidableEq

/-- `GenericXPub`: key info plus the 33-byte compressed public point. -/
structure GenericXPub where
  info : XKeyInfo
  pubkey : List Nat
deriving DecidableEq

/-- `NetworkParams`: six 4-byte version constants (stored as `u32`). -/
structure NetworkParams where
  PRIV_VERSION : Nat
  BIP49_PRIV_VERSION : Nat
  BIP84_PRIV_VERSION : Nat
  PUB_VERSION : Nat
  BIP49_PUB_VERSION : Nat
  BIP84_PUB_VERSION : Nat
deriving DecidableEq

/-- Mainnet encoding parameters (literals from `params!(Main { .. })` in
`enc.rs`; the `params!` macro maps `bip32`/`bip49`/`bip84` to the `PRIV`
constants and `bip32_pub`/`bip49_pub`/`bip84_pub` to the `PUB` constants). -/
def Main : NetworkParams :=
  { PRIV_VERSION := 0x0488ADE4
    BIP49_PRIV_VERSION := 0x049d7878
    BIP84_PRIV_VERSION := 0x04b2430c
    PUB_VERSION := 0x0488B21E
    BIP49_PUB_VERSION := 0x049d7cb2
    BIP84_PUB_VERSION := 0x04b24746 }

/-- Testnet encoding parameters (literals from `params!(Test { .. })`). -/
def Test : NetworkParams :=
  { PRIV_VERSION := 0x04358394
    BIP49_PRIV_VERSION := 0x044a4e28
    BIP84_PRIV_VERSION := 0x045f18bc
    PUB_VERSION := 0x043587CF
    BIP49_PUB_VERSION := 0x044a5262
    BIP84_PUB_VERSION := 0x045f1cf6 }

/-- `u32::to_be_bytes`. -/
def to_be_bytes (n : Nat) : List Nat :=
  [n / 2 ^ 24 % 256, n / 2 ^ 16 % 256, n / 2 ^ 8 % 256, n % 256]

/-- `u32::from_be_bytes` on a 4-byte buffer. -/
def from_be_bytes (l : List Nat) : Nat :=
  l.foldl (fun a b => a * 256 + b) 0

/-- `Read::read_exact` into an `n`-byte buffer: returns the bytes read and the
remaining stream, or an I/O error when the stream is too short. -/
def read_exact (n : Nat) (s : List Nat) : Except Bip32Error (List Nat × List Nat) :=
  if n ≤ s.length then Except.ok (s.take n, s.drop n)
  else Except.error Bip32Error.TruncatedStream

/-- `read_depth`: one byte. -/
def read_depth (s : List Nat) : Except Bip32Error (Nat × List Nat) :=
  match read_exact 1 s with
  | Except.ok (buf, r) => Except.ok (buf.headD 0, r)
  | Except.error e => Except.error e

/-- `read_parent`: 4 raw bytes (a `KeyFingerprint`). -/
def read_parent (s : List Nat) : Except Bip32Error (List Nat × List Nat) :=
  read_exact 4 s

/-- `read_index`: 4 bytes, big-endian `u32`. -/
def read_index (s : List Nat) : Except Bip32Error (Nat × List Nat) :=
  match read_exact 4 s with
  | Except.ok (buf, r) => Except.ok (from_be_bytes buf, r)
  | Except.error e => Except.error e

/-- `read_chain_code`: 32 raw bytes. -/
def read_chain_code (s : List Nat) : Except Bip32Error (List Nat × List Nat) :=
  read_exact 32 s

/-- `read_xpriv_body`: depth, parent, index, chain code, a mandatory zero
padding byte (any other value fails with `BadPadding(buf[0])`), then the
32-byte scalar handed to the backend's `from_privkey_array`. -/
def read_xpriv_body (B : Backend) (hint : Hint) (s : List Nat) :
    Except Bip32Error (GenericXPriv × List Nat) :=
  match read_depth s with
  | Except.error e => Except.error e
  | Except.ok (depth, s) =>
    match read_parent s with
    | Except.error e => Except.error e
    | Except.ok (parent, s) =>
      match read_index s with
      | Except.error e => Except.error e
      | Except.ok (index, s) =>
        match read_chain_code s with
        | Except.error e => Except.error e
        | Except.ok (chain_code, s) =>
          match read_exact 1 s with
          | Except.error e => Except.error e
          | Except.ok (pad, s) =>
            if pad ≠ [0] then Except.error (Bip32Error.BadPadding (pad.headD 0))
            else
              match read_exact 32 s with
              | Except.error e => Except.error e
              | Except.ok (buf, s) =>
                if B.privkeyOk buf then
                  Except.ok
                    ({ info :=
                        { depth := depth, parent := parent, index := index,
                          chain_code := chain_code, hint := hint },
                       privkey := buf }, s)
                else Except.error Bip32Error.BackendFailed

/-- `read_xpriv_without_network`: read and discard 4 version bytes, then read
the body with the hint defaulted to `Legacy`. -/
def read_xpriv_without_network (B : Backend) (s : List Nat) :
    Except Bip32Error (GenericXPriv × List Nat) :=
  match read_exact 4 s with
  | Except.error e => Except.error e
  | Except.ok (_, s) => read_xpriv_body B Hint.Legacy s

/-- `read_xpub_body`: depth, parent, index, chain code, then the 33-byte
compressed point handed to the backend's `from_pubkey_array` (no padding). -/
def read_xpub_body (B : Backend) (hint : Hint) (s : List Nat) :
    Except Bip32Error (GenericXPub × List Nat) :=
  match read_depth s with
  | Except.error e => Except.error e
  | Except.ok (depth, s) =>
    match read_parent s with
    | Except.error e => Except.error e
    | Except.ok (parent, s) =>
      match read_index s with
      | Except.error e => Except.error e
      | Except.ok (index, s) =>
        match read_chain_code s with
        | Except.error e => Except.error e
        | Except.ok (chain_code, s) =>
          match read_exact 33 s with
          | Except.error e => Except.error e
          | Except.ok (buf, s) =>
            if B.pubkeyOk buf then
              Except.ok
                ({ info :=
                    { depth := depth, parent := parent, index := index,
                      chain_code := chain_code, hint := hint },
                   pubkey := buf }, s)
            else Except.error Bip32Error.BackendFailed

/-- `read_xpub_without_network`: read and discard 4 version bytes, then read
the body with the hint defaulted to `Legacy`. -/
def read_xpub_without_network (B : Backend) (s : List Nat) :
    Except Bip32Error (GenericXPub × List Nat) :=
  match read_exact 4 s with
  | Except.error e => Except.error e
  | Except.ok (_, s) => read_xpub_body B Hint.Legacy s

/-- `BitcoinEncoder::<P>::read_xpriv`: 4 version bytes matched in order
against `PRIV_VERSION`, `BIP49_PRIV_VERSION`, `BIP84_PRIV_VERSION`; no match
fails with `BadXPrivVersionBytes(buf)`. -/
def read_xpriv (P : NetworkParams) (B : Backend) (s : List Nat) :
    Except Bip32Error (GenericXPriv × List Nat) :=
  match read_exact 4 s with
  | Except.error e => Except.error e
  | Except.ok (buf, r) =>
    let version_bytes := from_be_bytes buf
    if version_bytes = P.PRIV_VERSION then read_xpriv_body B Hint.Legacy r
    else if version_bytes = P.BIP49_PRIV_VERSION then
      read_xpriv_body B Hint.Compatibility r
    else if version_bytes = P.BIP84_PRIV_VERSION then
      read_xpriv_body B Hint.SegWit r
    else Except.error (Bip32Error.BadXPrivVersionBytes buf)

/-- `BitcoinEncoder::<P>::read_xpub`: 4 version bytes matched in order against
`PUB_VERSION`, `BIP49_PUB_VERSION`, `BIP84_PUB_VERSION`; no match fails with
`BadXPrivVersionBytes(buf)` (the code reuses the xpriv error variant here). -/
def read_xpub (P : NetworkParams) (B : Backend) (s : List Nat) :
    Except Bip32Error (GenericXPub × List Nat) :=
  match read_exact 4 s with
  | Except.error e => Except.error e
  | Except.ok (buf, r) =>
    let version_bytes := from_be_bytes buf
    if version_bytes = P.PUB_VERSION then read_xpub_body B Hint.Legacy r
    else if version_bytes = P.BIP49_PUB_VERSION then
      read_xpub_body B Hint.Compatibility r
    else if version_bytes = P.BIP84_PUB_VERSION then
      read_xpub_body B Hint.SegWit r
    else Except.error (Bip32Error.BadXPrivVersionBytes buf)

/-- `write_key_details`: depth (1 byte), parent fingerprint (4 bytes), index
(4 bytes big-endian), chain code (32 bytes). -/
def write_key_details (k : XKeyInfo) : List Nat :=
  [k.depth] ++ k.parent ++ to_be_bytes k.index ++ k.chain_code

/-- `BitcoinEncoder::<P>::write_xpriv`: version selected by the hint, key
details, one zero padding byte, the 32-byte scalar. -/
def write_xpriv (P : NetworkParams) (k : GenericXPriv) : List Nat :=
  (to_be_bytes
    (match k.info.hint with
      | Hint.Legacy => P.PRIV_VERSION
      | Hint.Compatibility => P.BIP49_PRIV_VERSION
      | Hint.SegWit => P.BIP84_PRIV_VERSION))
    ++ write_key_details k.info ++ [0] ++ k.privkey

/-- `BitcoinEncoder::<P>::write_xpub`: version selected by the hint, key
details, the 33-byte compressed point. -/
def write_xpub (P : NetworkParams) (k : GenericXPub) : List Nat :=
  (to_be_bytes
    (match k.info.hint with
      | Hint.Legacy => P.PUB_VERSION
      | Hint.Compatibility => P.BIP49_PUB_VERSION
      | Hint.SegWit => P.BIP84_PUB_VERSION))
    ++ write_key_details k.info ++ k.pubkey

/-- Modelled from the spec: `Hash256` (from coins-core, not under `src/`) is
"a double round of a 256-bit cryptographic hash" producing 32 bytes.  Every
claim settled here depends only on it being a deterministic function of the
payload with a 32-byte output, so it is modelled as a simple deterministic
32-byte digest. -/
def hash256 (v : List Nat) : List Nat :=
  (List.range 32).map (fun i => (v.foldl (fun a b => a * 331 + b + 7) 19 + i) % 256)

/-- The Base58 alphabet used by the `bs58` crate (Bitcoin alphabet). -/
def B58_ALPHABET : List Char :=
  ['1', '2', '3', '4', '5', '6', '7', '8', '9',
   'A', 'B', 'C', 'D', 'E', 'F', 'G', 'H', 'J', 'K', 'L', 'M', 'N',
   'P', 'Q', 'R', 'S', 'T', 'U', 'V', 'W', 'X', 'Y', 'Z',
   'a', 'b', 'c', 'd', 'e', 'f', 'g', 'h', 'i', 'j', 'k',
   'm', 'n', 'o', 'p', 'q', 'r', 's', 't', 'u', 'v', 'w', 'x', 'y', 'z']

/-- Digit value to Base58 character. -/
def valToChar (d : Nat) : Char := B58_ALPHABET.getD d '?'

/-- Base58 character to digit value; `none` for a character outside the
alphabet. -/
def charToVal (c : Char) : Option Nat := B58_ALPHABET.findIdx? (fun x => x == c)

/-- Modelled from the spec: Base58 encoding (the external `bs58` crate).  Each
leading zero byte becomes a literal `'1'`; the remainder is read as a
big-endian number and written in base 58, most significant digit first. -/
def base58_encode (v : List Nat) : List Char :=
  List.replicate (v.takeWhile (fun b => b == 0)).length '1'
    ++ (Nat.digits 58 (Nat.ofDigits 256 v.reverse)).reverse.map valToChar

/-- Character-by-character Base58 digit decoding; fails on the first character
outside the alphabet. -/
def decodeChars : List Char → Option (List Nat)
  | [] => some []
  | c :: cs =>
    match charToVal c, decodeChars cs with
    | some v, some vs => some (v :: vs)
    | _, _ => none

/-- Modelled from the spec: Base58 decoding (the external `bs58` crate).
Leading `'1'` characters become zero bytes; the remainder is read as a base-58
number and written out in base 256, most significant byte first. -/
def base58_decode (s : List Char) : Option (List Nat) :=
  match decodeChars s with
  | none => none
  | some vals =>
    some (List.replicate (vals.takeWhile (fun d => d == 0)).length 0
      ++ (Nat.digits 256 (Nat.ofDigits 58 vals.reverse)).reverse)

/-- `encode_b58_check`: append the first 4 bytes of `Hash256(payload)` as a
checksum, then Base58-encode. -/
def encode_b58_check (v : List Nat) : List Char :=
  base58_encode (v ++ (hash256 v).take 4)

/-- `decode_b58_check`: Base58-decode, split the last 4 bytes off as the
claimed checksum, recompute and compare.

The source computes `let idx = data.len() - 4;` with no length guard: when the
decoded vector is shorter than 4 bytes this `usize` subtraction underflows,
which panics in debug builds and, in release builds, wraps around so that the
slice `&data[..idx]` panics with an out-of-bounds index.  Both are modelled by
`Outcome.panicked`. -/
def decode_b58_check (s : List Char) : Outcome (List Nat) :=
  match base58_decode s with
  | none => Outcome.err Bip32Error.Base58DecodeError
  | some data =>
    if data.length < 4 then Outcome.panicked
    else
      let idx := data.length - 4
      let payload := data.take idx
      let checksum := data.drop idx
      let expected := (hash256 payload).take 4
      if expected ≠ checksum then Outcome.err Bip32Error.BadB58Checksum
      else Outcome.ok payload

/-- `xpriv_to_base58`: `write_xpriv` composed with `encode_b58_check`
(writing to a `Vec` cannot fail). -/
def xpriv_to_base58 (P : NetworkParams) (k : GenericXPriv) : List Char :=
  encode_b58_check (write_xpriv P k)

/-- `xpub_to_base58`: `write_xpub` composed with `encode_b58_check`. -/
def xpub_to_base58 (P : NetworkParams) (k : GenericXPub) : List Char :=
  encode_b58_check (write_xpub P k)

/-- `xpriv_from_base58`: `decode_b58_check` composed with `read_xpriv`; any
bytes left in the reader after the key are discarded. -/
def xpriv_from_base58 (P : NetworkParams) (B : Backend) (s : List Char) :
    Outcome GenericXPriv :=
  match decode_b58_check s with
  | Outcome.panicked => Outcome.panicked
  | Outcome.err e => Outcome.err e
  | Outcome.ok data =>
    match read_xpriv P B data with
    | Except.ok (k, _) => Outcome.ok k
    | Except.error e => Outcome.err e

/-- `xpub_from_base58`: `decode_b58_check` composed with `read_xpub`. -/
def xpub_from_base58 (P : NetworkParams) (B : Backend) (s : List Char) :
    Outcome GenericXPub :=
  match decode_b58_check s with
  | Outcome.panicked => Outcome.panicked
  | Outcome.err e => Outcome.err e
  | Outcome.ok data =>
    match read_xpub P B data with
    | Except.ok (k, _) => Outcome.ok k
    | Except.error e => Outcome.err e

/-- Well-formedness of an extended private key: fields have their Rust types'
ranges and sizes, and the backend accepts the scalar. -/
def ValidXPriv (B : Backend) (k : GenericXPriv) : Prop :=
  k.info.depth < 256 ∧
  k.info.parent.length = 4 ∧ (∀ b ∈ k.info.parent, b < 256) ∧
  k.info.index < 2 ^ 32 ∧
  k.info.chain_code.length = 32 ∧ (∀ b ∈ k.info.chain_code, b < 256) ∧
  k.privkey.length = 32 ∧ (∀ b ∈ k.privkey, b < 256) ∧
  B.privkeyOk k.privkey = true

/-- Well-formedness of an extended public key. -/
def ValidXPub (B : Backend) (k : GenericXPub) : Prop :=
  k.info.depth < 256 ∧
  k.info.parent.length = 4 ∧ (∀ b ∈ k.info.parent, b < 256) ∧
  k.info.index < 2 ^ 32 ∧
  k.info.chain_code.length = 32 ∧ (∀ b ∈ k.info.chain_code, b < 256) ∧
  k.pubkey.length = 33 ∧ (∀ b ∈ k.pubkey, b < 256) ∧
  B.pubkeyOk k.pubkey = true

instance (B : Backend) (k : GenericXPriv) : Decidable (ValidXPriv B k) := by
  unfold ValidXPriv; infer_instance

instance (B : Backend) (k : GenericXPub) : Decidable (ValidXPub B k) := by
  unfold ValidXPub; infer_instance

/-- The three private version constants of a parameter set fit in a `u32` and
are pairwise distinct (true of both built-in parameter sets). -/
def PrivVersionsOk (P : NetworkParams) : Prop :=
  P.PRIV_VERSION < 2 ^ 32 ∧ P.BIP49_PRIV_VERSION < 2 ^ 32 ∧
  P.BIP84_PRIV_VERSION < 2 ^ 32 ∧
  P.PRIV_VERSION ≠ P.BIP49_PRIV_VERSION ∧
  P.PRIV_VERSION ≠ P.BIP84_PRIV_VERSION ∧
  P.BIP49_PRIV_VERSION ≠ P.BIP84_PRIV_VERSION

/-- The three public version constants of a parameter set fit in a `u32` and
are pairwise distinct (true of both built-in parameter sets). -/
def PubVersionsOk (P : NetworkParams) : Prop :=
  P.PUB_VERSION < 2 ^ 32 ∧ P.BIP49_PUB_VERSION < 2 ^ 32 ∧
  P.BIP84_PUB_VERSION < 2 ^ 32 ∧
  P.PUB_VERSION ≠ P.BIP49_PUB_VERSION ∧
  P.PUB_VERSION ≠ P.BIP84_PUB_VERSION ∧
  P.BIP49_PUB_VERSION ≠ P.BIP84_PUB_VERSION

/-- A fully permissive backend, for concrete checks. -/
def B0 : Backend := ⟨fun _ => true, fun _ => true⟩

/-- A concrete extended private key, for concrete checks. -/
def kp0 : GenericXPriv :=
  { info := { depth := 0, parent := [0, 0, 0, 0], index := 0,
              chain_code := List.replicate 32 0, hint := Hint.Legacy },
    privkey := List.replicate 32 1 }

/-- A concrete extended public key, for concrete checks. -/
def ku0 : GenericXPub :=
  { info := { depth := 0, parent := [0, 0, 0, 0], index := 0,
              chain_code := List.replicate 32 0, hint := Hint.Legacy },
    pubkey := List.replicate 33 2 }

theorem from_to_be (n : Nat) (h : n < 2 ^ 32) : from_be_bytes (to_be_bytes n) = n := by
  simp [from_be_bytes, to_be_bytes, List.foldl]
  omega

theorem to_be_bytes_lt (n : Nat) : ∀ b ∈ to_be_bytes n, b < 256 := by
  simp [to_be_bytes]
  omega

theorem read_exact_append (n : Nat) (a s : List Nat) (h : a.length = n) :
    read_exact n (a ++ s) = Except.ok (a, s) := by
  unfold read_exact
  rw [if_pos (by simp [List.length_append, h])]
  rw [List.take_left' h, List.drop_left' h]

theorem read_exact_cons (a : Nat) (s : List Nat) :
    read_exact 1 (a :: s) = Except.ok ([a], s) :=
  read_exact_append 1 [a] s rfl

theorem read_exact_ok_inv (n : Nat) (s a r : List Nat)
    (h : read_exact n s = Except.ok (a, r)) : a.length = n ∧ s = a ++ r := by
  unfold read_exact at h
  by_cases hle : n ≤ s.length
  · rw [if_pos hle] at h
    cases h
    refine ⟨by simp [List.length_take]; omega, by simp [List.take_append_drop]⟩
  · rw [if_neg hle] at h
    cases h

theorem read_xpriv_body_append (B : Backend) (h : Hint) (d : Nat)
    (par ib cc kb r : List Nat)
    (hpar : par.length = 4) (hib : ib.length = 4) (hcc : cc.length = 32)
    (hkb : kb.length = 32) (hok : B.privkeyOk kb = true) :
    read_xpriv_body B h (d :: (par ++ (ib ++ (cc ++ (0 :: (kb ++ r)))))) =
      Except.ok
        ({ info := { depth := d, parent := par, index := from_be_bytes ib,
                     chain_code := cc, hint := h },
           privkey := kb }, r) := by
  unfold read_xpriv_body read_depth read_parent read_index read_chain_code
  rw [read_exact_cons]
  simp only [List.append_assoc, List.cons_append, List.nil_append]
  rw [read_exact_append 4 par _ hpar]
  simp only []
  rw [read_exact_append 4 ib _ hib]
  simp only []
  rw [read_exact_append 32 cc _ hcc]
  simp only []
  rw [read_exact_cons]
  simp only []
  rw [if_neg (by simp)]
  rw [read_exact_append 32 kb _ hkb]
  simp only []
  rw [if_pos hok]
  simp

theorem read_xpub_body_append (B : Backend) (h : Hint) (d : Nat)
    (par ib cc pk r : List Nat)
    (hpar : par.length = 4) (hib : ib.length = 4) (hcc : cc.length = 32)
    (hpk : pk.length = 33) (hok : B.pubkeyOk pk = true) :
    read_xpub_body B h (d :: (par ++ (ib ++ (cc ++ (pk ++ r))))) =
      Except.ok
        ({ info := { depth := d, parent := par, index := from_be_bytes ib,
                     chain_code := cc, hint := h },
           pubkey := pk }, r) := by
  unfold read_xpub_body read_depth read_parent read_index read_chain_code
  rw [read_exact_cons]
  simp only [List.append_assoc, List.cons_append, List.nil_append]
  rw [read_exact_append 4 par _ hpar]
  simp only []
  rw [read_exact_append 4 ib _ hib]
  simp only []
  rw [read_exact_append 32 cc _ hcc]
  simp only []
  rw [read_exact_append 33 pk _ hpk]
  simp only []
  rw [if_pos hok]
  simp

theorem read_xpriv_body_exact (B : Backend) (h : Hint) (d : Nat)
    (par ib cc kb : List Nat)
    (hpar : par.length = 4) (hib : ib.length = 4) (hcc : cc.length = 32)
    (hkb : kb.length = 32) (hok : B.privkeyOk kb = true) :
    read_xpriv_body B h (d :: (par ++ (ib ++ (cc ++ (0 :: kb))))) =
      Except.ok
        ({ info := { depth := d, parent := par, index := from_be_bytes ib,
                     chain_code := cc, hint := h },
           privkey := kb }, []) := by
  have := read_xpriv_body_append B h d par ib cc kb [] hpar hib hcc hkb hok
  simpa using this

theorem read_xpub_body_exact (B : Backend) (h : Hint) (d : Nat)
    (par ib cc pk : List Nat)
    (hpar : par.length = 4) (hib : ib.length = 4) (hcc : cc.length = 32)
    (hpk : pk.length = 33) (hok : B.pubkeyOk pk = true) :
    read_xpub_body B h (d :: (par ++ (ib ++ (cc ++ pk)))) =
      Except.ok
        ({ info := { depth := d, parent := par, index := from_be_bytes ib,
                     chain_code := cc, hint := h },
           pubkey := pk }, []) := by
  have := read_xpub_body_append B h d par ib cc pk [] hpar hib hcc hpk hok
  simpa using this

theorem read_write_xpriv (P : NetworkParams) (B : Backend) (k : GenericXPriv)
    (hP : PrivVersionsOk P) (hk : ValidXPriv B k) :
    read_xpriv P B (write_xpriv P k) = Except.ok (k, []) := by
  obtain ⟨hv1, hv2, hv3, hd1, hd2, hd3⟩ := hP
  rcases k with ⟨⟨d, par, idx, cc, hh⟩, kb⟩
  obtain ⟨hdep, hpar, hparb, hidx, hcc, hccb, hkb, hkbb, hok⟩ := hk
  dsimp only at hdep hpar hparb hidx hcc hccb hkb hkbb hok
  cases hh
  case Legacy =>
    unfold write_xpriv write_key_details read_xpriv
    simp only [List.append_assoc, List.cons_append, List.nil_append]
    rw [read_exact_append 4 (to_be_bytes P.PRIV_VERSION) _ rfl]
    simp only []
    rw [from_to_be _ hv1, if_pos rfl]
    rw [read_xpriv_body_exact B _ d par (to_be_bytes idx) cc kb hpar rfl hcc hkb hok]
    rw [from_to_be _ hidx]
  case Compatibility =>
    unfold write_xpriv write_key_details read_xpriv
    simp only [List.append_assoc, List.cons_append, List.nil_append]
    rw [read_exact_append 4 (to_be_bytes P.BIP49_PRIV_VERSION) _ rfl]
    simp only []
    rw [from_to_be _ hv2, if_neg (Ne.symm hd1), if_pos rfl]
    rw [read_xpriv_body_exact B _ d par (to_be_bytes idx) cc kb hpar rfl hcc hkb hok]
    rw [from_to_be _ hidx]
  case SegWit =>
    unfold write_xpriv write_key_details read_xpriv
    simp only [List.append_assoc, List.cons_append, List.nil_append]
    rw [read_exact_append 4 (to_be_bytes P.BIP84_PRIV_VERSION) _ rfl]
    simp only []
    rw [from_to_be _ hv3, if_neg (Ne.symm hd2), if_neg (Ne.symm hd3), if_pos rfl]
    rw [read_xpriv_body_exact B _ d par (to_be_bytes idx) cc kb hpar rfl hcc hkb hok]
    rw [from_to_be _ hidx]

theorem read_write_xpub (P : NetworkParams) (B : Backend) (k : GenericXPub)
    (hP : PubVersionsOk P) (hk : ValidXPub B k) :
    read_xpub P B (write_xpub P k) = Except.ok (k, []) := by
  obtain ⟨hv1, hv2, hv3, hd1, hd2, hd3⟩ := hP
  rcases k with ⟨⟨d, par, idx, cc, hh⟩, pk⟩
  obtain ⟨hdep, hpar, hparb, hidx, hcc, hccb, hpk, hpkb, hok⟩ := hk
  dsimp only at hdep hpar hparb hidx hcc hccb hpk hpkb hok
  cases hh
  case Legacy =>
    unfold write_xpub write_key_details read_xpub
    simp only [List.append_assoc, List.cons_append, List.nil_append]
    rw [read_exact_append 4 (to_be_bytes P.PUB_VERSION) _ rfl]
    simp only []
    rw [from_to_be _ hv1, if_pos rfl]
    rw [read_xpub_body_exact B _ d par (to_be_bytes idx) cc pk hpar rfl hcc hpk hok]
    rw [from_to_be _ hidx]
  case Compatibility =>
    unfold write_xpub write_key_details read_xpub
    simp only [List.append_assoc, List.cons_append, List.nil_append]
    rw [read_exact_append 4 (to_be_bytes P.BIP49_PUB_VERSION) _ rfl]
    simp only []
    rw [from_to_be _ hv2, if_neg (Ne.symm hd1), if_pos rfl]
    rw [read_xpub_body_exact B _ d par (to_be_bytes idx) cc pk hpar rfl hcc hpk hok]
    rw [from_to_be _ hidx]
  case SegWit =>
    unfold write_xpub write_key_details read_xpub
    simp only [List.append_assoc, List.cons_append, List.nil_append]
    rw [read_exact_append 4 (to_be_bytes P.BIP84_PUB_VERSION) _ rfl]
    simp only []
    rw [from_to_be _ hv3, if_neg (Ne.symm hd2), if_neg (Ne.symm hd3), if_pos rfl]
    rw [read_xpub_body_exact B _ d par (to_be_bytes idx) cc pk hpar rfl hcc hpk hok]
    rw [from_to_be _ hidx]

theorem write_xpriv_bytes_lt (P : NetworkParams) (k : GenericXPriv)
    (hdep : k.info.depth < 256) (hparb : ∀ b ∈ k.info.parent, b < 256)
    (hccb : ∀ b ∈ k.info.chain_code, b < 256) (hkbb : ∀ b ∈ k.privkey, b < 256) :
    ∀ x ∈ write_xpriv P k, x < 256 := by
  intro x hx
  unfold write_xpriv write_key_details at hx
  rcases List.mem_append.mp hx with h | h
  swap
  · exact hkbb x h
  rcases List.mem_append.mp h with h | h
  swap
  · rw [List.mem_singleton] at h
    omega
  rcases List.mem_append.mp h with h | h
  · exact to_be_bytes_lt _ x h
  rcases List.mem_append.mp h with h | h
  swap
  · exact hccb x h
  rcases List.mem_append.mp h with h | h
  swap
  · exact to_be_bytes_lt _ x h
  rcases List.mem_append.mp h with h | h
  swap
  · exact hparb x h
  rw [List.mem_singleton] at h
  exact h ▸ hdep

theorem write_xpub_bytes_lt (P : NetworkParams) (k : GenericXPub)
    (hdep : k.info.depth < 256) (hparb : ∀ b ∈ k.info.parent, b < 256)
    (hccb : ∀ b ∈ k.info.chain_code, b < 256) (hpkb : ∀ b ∈ k.pubkey, b < 256) :
    ∀ x ∈ write_xpub P k, x < 256 := by
  intro x hx
  unfold write_xpub write_key_details at hx
  rcases List.mem_append.mp hx with h | h
  swap
  · exact hpkb x h
  rcases List.mem_append.mp h with h | h
  · exact to_be_bytes_lt _ x h
  rcases List.mem_append.mp h with h | h
  swap
  · exact hccb x h
  rcases List.mem_append.mp h with h | h
  swap
  · exact to_be_bytes_lt _ x h
  rcases List.mem_append.mp h with h | h
  swap
  · exact hparb x h
  rw [List.mem_singleton] at h
  exact h ▸ hdep

theorem charToVal_valToChar : ∀ d, d < 58 → charToVal (valToChar d) = some d := by decide

theorem charToVal_one : charToVal '1' = some 0 := by decide

theorem decodeChars_map (ds : List Nat) (h : ∀ d ∈ ds, d < 58) :
    decodeChars (ds.map valToChar) = some ds := by
  induction ds with
  | nil => rfl
  | cons a t ih =>
    simp only [List.map_cons, decodeChars]
    rw [charToVal_valToChar a (h a (by simp))]
    rw [ih (fun d hd => h d (by simp [hd]))]

theorem decodeChars_replicate_one (z : Nat) (t : List Char) (vs : List Nat)
    (h : decodeChars t = some vs) :
    decodeChars (List.replicate z '1' ++ t) = some (List.replicate z 0 ++ vs) := by
  induction z with
  | zero => simpa using h
  | succ n ih =>
    simp only [List.replicate_succ, List.cons_append, decodeChars, List.append_eq,
      charToVal_one]
    rw [ih]

theorem takeWhile_zero_replicate_append (z : Nat) (t : List Nat) :
    (List.replicate z 0 ++ t).takeWhile (fun b => b == 0) =
      List.replicate z 0 ++ t.takeWhile (fun b => b == 0) := by
  induction z with
  | zero => simp
  | succ n ih => simp [List.replicate_succ, List.takeWhile_cons, ih]

theorem takeWhile_zero_head_ne (x : Nat) (xs : List Nat) (hx : x ≠ 0) :
    (x :: xs).takeWhile (fun b => b == 0) = [] := by
  simp [List.takeWhile_cons, hx]

theorem ofDigits_replicate_zero (b z : Nat) :
    Nat.ofDigits b (List.replicate z 0) = 0 := by
  induction z with
  | zero => rw [List.replicate_zero, Nat.ofDigits_nil]
  | succ n ih => simp [List.replicate_succ, Nat.ofDigits_cons, ih]

theorem ofDigits_append_replicate_zero (b z : Nat) (l : List Nat) :
    Nat.ofDigits b (l ++ List.replicate z 0) = Nat.ofDigits b l := by
  rw [Nat.ofDigits_append, ofDigits_replicate_zero]
  simp

theorem ofDigits_eq_zero_mem (b : Nat) (hb : 0 < b) (l : List Nat)
    (h : Nat.ofDigits b l = 0) : ∀ x ∈ l, x = 0 := by
  induction l with
  | nil => simp
  | cons a t ih =>
    rw [Nat.ofDigits_cons] at h
    have ha : a = 0 ∧ b * Nat.ofDigits b t = 0 := by
      constructor <;> omega
    have ht : Nat.ofDigits b t = 0 := by
      rcases Nat.mul_eq_zero.mp ha.2 with hb0 | h0
      · omega
      · exact h0
    intro x hx
    rcases List.mem_cons.mp hx with hxa | hxt
    · exact hxa.trans ha.1
    · exact ih ht x hxt

theorem dropWhile_zero_head_ne (v : List Nat) (x : Nat) (xs : List Nat)
    (h : v.dropWhile (fun b => b == 0) = x :: xs) : x ≠ 0 := by
  induction v with
  | nil => simp [List.dropWhile] at h
  | cons a t ih =>
    rw [List.dropWhile_cons] at h
    by_cases hpa : (a == 0) = true
    · rw [if_pos hpa] at h
      exact ih h
    · rw [if_neg hpa] at h
      cases h
      simpa using hpa

theorem base58_decode_eq (s : List Char) (vals : List Nat)
    (h : decodeChars s = some vals) :
    base58_decode s =
      some (List.replicate (vals.takeWhile (fun d => d == 0)).length 0
        ++ (Nat.digits 256 (Nat.ofDigits 58 vals.reverse)).reverse) := by
  unfold base58_decode
  rw [h]

theorem base58_decode_encode (v : List Nat) (hv : ∀ b ∈ v, b < 256) :
    base58_decode (base58_encode v) = some v := by
  have hsplit : v.takeWhile (fun b => b == 0) ++ v.dropWhile (fun b => b == 0) = v :=
    List.takeWhile_append_dropWhile _ _
  have htwz : ∀ x ∈ v.takeWhile (fun b => b == 0), x = 0 := by
    intro x hx
    have := List.mem_takeWhile_imp hx
    simpa using this
  have htwrep : v.takeWhile (fun b => b == 0) =
      List.replicate (v.takeWhile (fun b => b == 0)).length 0 :=
    List.eq_replicate_of_mem htwz
  have hvrev : v.reverse =
      (v.dropWhile (fun b => b == 0)).reverse ++
        List.replicate (v.takeWhile (fun b => b == 0)).length 0 := by
    conv_lhs => rw [← hsplit]
    rw [List.reverse_append]
    conv_lhs => rw [htwrep, List.reverse_replicate]
  have hn : Nat.ofDigits 256 v.reverse =
      Nat.ofDigits 256 (v.dropWhile (fun b => b == 0)).reverse := by
    rw [hvrev, ofDigits_append_replicate_zero]
  unfold base58_encode
  cases hwe : v.dropWhile (fun b => b == 0) with
  | nil =>
    have hn0 : Nat.ofDigits 256 v.reverse = 0 := by
      rw [hn, hwe, List.reverse_nil, Nat.ofDigits_nil]
    rw [hn0, Nat.digits_zero, List.reverse_nil, List.map_nil, List.append_nil]
    rw [base58_decode_eq _ (List.replicate (v.takeWhile (fun b => b == 0)).length 0)
      (by
        have := decodeChars_replicate_one (v.takeWhile (fun b => b == 0)).length [] [] rfl
        simpa using this)]
    have h1 : (List.replicate (v.takeWhile (fun b => b == 0)).length 0).takeWhile
        (fun d => d == 0) = List.replicate (v.takeWhile (fun b => b == 0)).length 0 := by
      have := takeWhile_zero_replicate_append (v.takeWhile (fun b => b == 0)).length []
      simp only [List.append_nil] at this
      rw [this]
      simp
    rw [h1, List.length_replicate, List.reverse_replicate, ofDigits_replicate_zero,
      Nat.digits_zero, List.reverse_nil, List.append_nil]
    rw [← htwrep]
    have hveq : v = v.takeWhile (fun b => b == 0) := by
      conv_lhs => rw [← hsplit, hwe]
      rw [List.append_nil]
    rw [← hveq]
  | cons x xs =>
    have hx0 : x ≠ 0 := dropWhile_zero_head_ne v x xs hwe
    have hwb : ∀ b ∈ (x :: xs), b < 256 := by
      intro b hb
      apply hv
      have hbw : b ∈ v.dropWhile (fun c => c == 0) := by rw [hwe]; exact hb
      exact (List.dropWhile_sublist _).subset hbw
    have hnw : Nat.ofDigits 256 v.reverse = Nat.ofDigits 256 ((x :: xs).reverse) := by
      rw [hn, hwe]
    have hn0 : Nat.ofDigits 256 v.reverse ≠ 0 := by
      rw [hnw]
      intro h0
      exact hx0 (ofDigits_eq_zero_mem 256 (by norm_num) _ h0 x (by simp))
    have hd58 : ∀ d ∈ (Nat.digits 58 (Nat.ofDigits 256 v.reverse)).reverse, d < 58 := by
      intro d hd
      exact Nat.digits_lt_base (by norm_num) (List.mem_reverse.mp hd)
    have hdc : decodeChars
        (List.replicate (v.takeWhile (fun b => b == 0)).length '1'
          ++ (Nat.digits 58 (Nat.ofDigits 256 v.reverse)).reverse.map valToChar) =
        some (List.replicate (v.takeWhile (fun b => b == 0)).length 0
          ++ (Nat.digits 58 (Nat.ofDigits 256 v.reverse)).reverse) :=
      decodeChars_replicate_one _ _ _ (decodeChars_map _ hd58)
    rw [base58_decode_eq _ _ hdc]
    have hdnn : Nat.digits 58 (Nat.ofDigits 256 v.reverse) ≠ [] :=
      Nat.digits_ne_nil_iff_ne_zero.mpr hn0
    obtain ⟨y, ys, hys⟩ : ∃ y ys,
        (Nat.digits 58 (Nat.ofDigits 256 v.reverse)).reverse = y :: ys := by
      cases hrev : (Nat.digits 58 (Nat.ofDigits 256 v.reverse)).reverse with
      | nil =>
        exact absurd (by simpa using congrArg List.reverse hrev) hdnn
      | cons a b => exact ⟨a, b, rfl⟩
    have hy0 : y ≠ 0 := by
      have hgl := Nat.getLast_digit_ne_zero 58 hn0
      have hh : (Nat.digits 58 (Nat.ofDigits 256 v.reverse)).reverse.head? =
          (Nat.digits 58 (Nat.ofDigits 256 v.reverse)).getLast? := List.head?_reverse _
      rw [hys] at hh
      rw [List.getLast?_eq_getLast _ hdnn] at hh
      simp only [List.head?_cons, Option.some.injEq] at hh
      rw [hh]
      exact hgl
    have htk : (List.replicate (v.takeWhile (fun b => b == 0)).length 0
        ++ (Nat.digits 58 (Nat.ofDigits 256 v.reverse)).reverse).takeWhile
        (fun d => d == 0) = List.replicate (v.takeWhile (fun b => b == 0)).length 0 := by
      rw [takeWhile_zero_replicate_append, hys, takeWhile_zero_head_ne y ys hy0,
        List.append_nil]
    rw [htk, List.length_replicate]
    rw [List.reverse_append, List.reverse_reverse, List.reverse_replicate]
    rw [ofDigits_append_replicate_zero, Nat.ofDigits_digits]
    have hdig : Nat.digits 256 (Nat.ofDigits 256 v.reverse) = (x :: xs).reverse := by
      rw [hnw]
      refine Nat.digits_ofDigits 256 (by norm_num) _ ?_ ?_
      · intro l hl
        exact hwb l (List.mem_reverse.mp hl)
      · intro hne
        rw [List.getLast_reverse]
        exact hx0
    rw [hdig, List.reverse_reverse]
    rw [← htwrep]
    have hveq : v = v.takeWhile (fun b => b == 0) ++ (x :: xs) := by
      conv_lhs => rw [← hsplit, hwe]
    rw [← hveq]

theorem hash256_length (v : List Nat) : (hash256 v).length = 32 := by
  simp [hash256]

theorem hash256_lt (v : List Nat) : ∀ b ∈ hash256 v, b < 256 := by
  intro b hb
  simp only [hash256, List.mem_map, List.mem_range] at hb
  obtain ⟨i, hi, he⟩ := hb
  omega

theorem decode_encode_b58_check (v : List Nat) (hv : ∀ b ∈ v, b < 256) :
    decode_b58_check (encode_b58_check v) = Outcome.ok v := by
  unfold encode_b58_check decode_b58_check
  have hb : ∀ b ∈ v ++ (hash256 v).take 4, b < 256 := by
    intro b hbm
    rcases List.mem_append.mp hbm with h | h
    · exact hv b h
    · exact hash256_lt v b (List.mem_of_mem_take h)
  rw [base58_decode_encode _ hb]
  simp only []
  have hlen4 : ((hash256 v).take 4).length = 4 := by
    rw [List.length_take, hash256_length]
    decide
  have hlen : (v ++ (hash256 v).take 4).length = v.length + 4 := by
    rw [List.length_append, hlen4]
  rw [if_neg (by omega)]
  rw [hlen]
  rw [Nat.add_sub_cancel]
  rw [List.take_left' rfl, List.drop_left' rfl]
  rw [if_neg (fun hne => hne rfl)]

theorem read_depth_ok_inv (s : List Nat) (d : Nat) (r : List Nat)
    (h : read_depth s = Except.ok (d, r)) : s = d :: r := by
  unfold read_depth at h
  cases hre : read_exact 1 s with
  | error e => rw [hre] at h; cases h
  | ok p =>
    obtain ⟨buf, r1⟩ := p
    rw [hre] at h
    simp only [] at h
    cases h
    obtain ⟨hl, hs⟩ := read_exact_ok_inv 1 s buf _ hre
    cases buf with
    | nil => simp at hl
    | cons b t =>
      cases t with
      | nil => simpa using hs
      | cons b2 t2 => simp at hl

theorem read_index_ok_inv (s : List Nat) (n : Nat) (r : List Nat)
    (h : read_index s = Except.ok (n, r)) :
    ∃ ib, ib.length = 4 ∧ from_be_bytes ib = n ∧ s = ib ++ r := by
  unfold read_index at h
  cases hre : read_exact 4 s with
  | error e => rw [hre] at h; cases h
  | ok p =>
    obtain ⟨buf, r1⟩ := p
    rw [hre] at h
    simp only [] at h
    cases h
    obtain ⟨hl, hs⟩ := read_exact_ok_inv 4 s buf _ hre
    exact ⟨buf, hl, rfl, hs⟩

theorem read_xpriv_body_ok_inv (B : Backend) (h : Hint) (s : List Nat)
    (k : GenericXPriv) (r : List Nat)
    (hk : read_xpriv_body B h s = Except.ok (k, r)) :
    ∃ ib, ib.length = 4 ∧ from_be_bytes ib = k.info.index ∧ k.info.hint = h ∧
      k.info.parent.length = 4 ∧ k.info.chain_code.length = 32 ∧
      k.privkey.length = 32 ∧ B.privkeyOk k.privkey = true ∧
      s = k.info.depth ::
        (k.info.parent ++ (ib ++ (k.info.chain_code ++ (0 :: (k.privkey ++ r))))) := by
  unfold read_xpriv_body at hk
  cases h1 : read_depth s with
  | error e => rw [h1] at hk; cases hk
  | ok p1 =>
    obtain ⟨d, s1⟩ := p1
    rw [h1] at hk
    simp only [] at hk
    cases h2 : read_parent s1 with
    | error e => rw [h2] at hk; cases hk
    | ok p2 =>
      obtain ⟨par, s2⟩ := p2
      rw [h2] at hk
      simp only [] at hk
      cases h3 : read_index s2 with
      | error e => rw [h3] at hk; cases hk
      | ok p3 =>
        obtain ⟨idx, s3⟩ := p3
        rw [h3] at hk
        simp only [] at hk
        cases h4 : read_chain_code s3 with
        | error e => rw [h4] at hk; cases hk
        | ok p4 =>
          obtain ⟨cc, s4⟩ := p4
          rw [h4] at hk
          simp only [] at hk
          cases h5 : read_exact 1 s4 with
          | error e => rw [h5] at hk; cases hk
          | ok p5 =>
            obtain ⟨pad, s5⟩ := p5
            rw [h5] at hk
            simp only [] at hk
            by_cases hpad : pad ≠ [0]
            · rw [if_pos hpad] at hk; cases hk
            · rw [if_neg hpad] at hk
              push_neg at hpad
              cases h6 : read_exact 32 s5 with
              | error e => rw [h6] at hk; cases hk
              | ok p6 =>
                obtain ⟨kb, s6⟩ := p6
                rw [h6] at hk
                simp only [] at hk
                by_cases hok : B.privkeyOk kb = true
                · rw [if_pos hok] at hk
                  cases hk
                  obtain ⟨hpl, hps⟩ := read_exact_ok_inv 4 s1 par s2 h2
                  obtain ⟨ib, hibl, hibv, hibs⟩ := read_index_ok_inv s2 idx s3 h3
                  obtain ⟨hcl, hcs⟩ := read_exact_ok_inv 32 s3 cc s4 h4
                  obtain ⟨hal, has⟩ := read_exact_ok_inv 1 s4 pad s5 h5
                  obtain ⟨hkl, hks⟩ := read_exact_ok_inv 32 s5 kb _ h6
                  refine ⟨ib, hibl, hibv, rfl, hpl, hcl, hkl, hok, ?_⟩
                  rw [read_depth_ok_inv s d s1 h1, hps, hibs, hcs, has, hpad, hks]
                  simp [List.append_assoc]
                · rw [if_neg hok] at hk; cases hk

theorem read_xpriv_body_consumes (B : Backend) (h : Hint) (s : List Nat)
    (k : GenericXPriv) (r : List Nat)
    (hk : read_xpriv_body B h s = Except.ok (k, r)) :
    s.length = 74 + r.length := by
  obtain ⟨ib, hibl, _, _, hpl, hcl, hkl, _, hs⟩ :=
    read_xpriv_body_ok_inv B h s k r hk
  rw [hs]
  simp [List.length_append, hibl, hpl, hcl, hkl]
  omega

theorem read_xpriv_body_extend (B : Backend) (h : Hint) (s t : List Nat)
    (k : GenericXPriv) (r : List Nat)
    (hk : read_xpriv_body B h s = Except.ok (k, r)) :
    read_xpriv_body B h (s ++ t) = Except.ok (k, r ++ t) := by
  obtain ⟨ib, hibl, hibv, hhint, hpl, hcl, hkl, hok, hs⟩ :=
    read_xpriv_body_ok_inv B h s k r hk
  subst hs
  have happ := read_xpriv_body_append B h k.info.depth k.info.parent ib
    k.info.chain_code k.privkey (r ++ t) hpl hibl hcl hkl hok
  rw [show (k.info.depth ::
        (k.info.parent ++ (ib ++ (k.info.chain_code ++ (0 :: (k.privkey ++ r)))))) ++ t
      = k.info.depth ::
        (k.info.parent ++ (ib ++ (k.info.chain_code ++ (0 :: (k.privkey ++ (r ++ t))))))
    from by simp [List.append_assoc]]
  rw [happ, hibv, ← hhint]

theorem read_xpriv_extend (P : NetworkParams) (B : Backend) (s t : List Nat)
    (k : GenericXPriv) (r : List Nat)
    (hk : read_xpriv P B s = Except.ok (k, r)) :
    read_xpriv P B (s ++ t) = Except.ok (k, r ++ t) := by
  unfold read_xpriv at hk ⊢
  cases h1 : read_exact 4 s with
  | error e => rw [h1] at hk; cases hk
  | ok p =>
    obtain ⟨buf, rest⟩ := p
    rw [h1] at hk
    simp only [] at hk
    obtain ⟨hlen, hs⟩ := read_exact_ok_inv 4 s buf rest h1
    subst hs
    rw [List.append_assoc, read_exact_append 4 buf _ hlen]
    simp only []
    by_cases c1 : from_be_bytes buf = P.PRIV_VERSION
    · rw [if_pos c1] at hk ⊢
      exact read_xpriv_body_extend _ _ _ _ _ _ hk
    · rw [if_neg c1] at hk ⊢
      by_cases c2 : from_be_bytes buf = P.BIP49_PRIV_VERSION
      · rw [if_pos c2] at hk ⊢
        exact read_xpriv_body_extend _ _ _ _ _ _ hk
      · rw [if_neg c2] at hk ⊢
        by_cases c3 : from_be_bytes buf = P.BIP84_PRIV_VERSION
        · rw [if_pos c3] at hk ⊢
          exact read_xpriv_body_extend _ _ _ _ _ _ hk
        · rw [if_neg c3] at hk ⊢
          cases hk

theorem read_xpub_body_ok_inv (B : Backend) (h : Hint) (s : List Nat)
    (k : GenericXPub) (r : List Nat)
    (hk : read_xpub_body B h s = Except.ok (k, r)) :
    ∃ ib, ib.length = 4 ∧ from_be_bytes ib = k.info.index ∧ k.info.hint = h ∧
      k.info.parent.length = 4 ∧ k.info.chain_code.length = 32 ∧
      k.pubkey.length = 33 ∧ B.pubkeyOk k.pubkey = true ∧
      s = k.info.depth ::
        (k.info.parent ++ (ib ++ (k.info.chain_code ++ (k.pubkey ++ r)))) := by
  unfold read_xpub_body at hk
  cases h1 : read_depth s with
  | error e => rw [h1] at hk; cases hk
  | ok p1 =>
    obtain ⟨d, s1⟩ := p1
    rw [h1] at hk
    simp only [] at hk
    cases h2 : read_parent s1 with
    | error e => rw [h2] at hk; cases hk
    | ok p2 =>
      obtain ⟨par, s2⟩ := p2
      rw [h2] at hk
      simp only [] at hk
      cases h3 : read_index s2 with
      | error e => rw [h3] at hk; cases hk
      | ok p3 =>
        obtain ⟨idx, s3⟩ := p3
        rw [h3] at hk
        simp only [] at hk
        cases h4 : read_chain_code s3 with
        | error e => rw [h4] at hk; cases hk
        | ok p4 =>
          obtain ⟨cc, s4⟩ := p4
          rw [h4] at hk
          simp only [] at hk
          cases h5 : read_exact 33 s4 with
          | error e => rw [h5] at hk; cases hk
          | ok p5 =>
            obtain ⟨pk, s5⟩ := p5
            rw [h5] at hk
            simp only [] at hk
            by_cases hok : B.pubkeyOk pk = true
            · rw [if_pos hok] at hk
              cases hk
              obtain ⟨hpl, hps⟩ := read_exact_ok_inv 4 s1 par s2 h2
              obtain ⟨ib, hibl, hibv, hibs⟩ := read_index_ok_inv s2 idx s3 h3
              obtain ⟨hcl, hcs⟩ := read_exact_ok_inv 32 s3 cc s4 h4
              obtain ⟨hkl, hks⟩ := read_exact_ok_inv 33 s4 pk _ h5
              refine ⟨ib, hibl, hibv, rfl, hpl, hcl, hkl, hok, ?_⟩
              rw [read_depth_ok_inv s d s1 h1, hps, hibs, hcs, hks]
            · rw [if_neg hok] at hk; cases hk

theorem read_xpub_body_extend (B : Backend) (h : Hint) (s t : List Nat)
    (k : GenericXPub) (r : List Nat)
    (hk : read_xpub_body B h s = Except.ok (k, r)) :
    read_xpub_body B h (s ++ t) = Except.ok (k, r ++ t) := by
  obtain ⟨ib, hibl, hibv, hhint, hpl, hcl, hkl, hok, hs⟩ :=
    read_xpub_body_ok_inv B h s k r hk
  subst hs
  have happ := read_xpub_body_append B h k.info.depth k.info.parent ib
    k.info.chain_code k.pubkey (r ++ t) hpl hibl hcl hkl hok
  rw [show (k.info.depth ::
        (k.info.parent ++ (ib ++ (k.info.chain_code ++ (k.pubkey ++ r))))) ++ t
      = k.info.depth ::
        (k.info.parent ++ (ib ++ (k.info.chain_code ++ (k.pubkey ++ (r ++ t)))))
    from by simp [List.append_assoc]]
  rw [happ, hibv, ← hhint]

theorem read_xpub_extend (P : NetworkParams) (B : Backend) (s t : List Nat)
    (k : GenericXPub) (r : List Nat)
    (hk : read_xpub P B s = Except.ok (k, r)) :
    read_xpub P B (s ++ t) = Except.ok (k, r ++ t) := by
  unfold read_xpub at hk ⊢
  cases h1 : read_exact 4 s with
  | error e => rw [h1] at hk; cases hk
  | ok p =>
    obtain ⟨buf, rest⟩ := p
    rw [h1] at hk
    simp only [] at hk
    obtain ⟨hlen, hs⟩ := read_exact_ok_inv 4 s buf rest h1
    subst hs
    rw [List.append_assoc, read_exact_append 4 buf _ hlen]
    simp only []
    by_cases c1 : from_be_bytes buf = P.PUB_VERSION
    · rw [if_pos c1] at hk ⊢
      exact read_xpub_body_extend _ _ _ _ _ _ hk
    · rw [if_neg c1] at hk ⊢
      by_cases c2 : from_be_bytes buf = P.BIP49_PUB_VERSION
      · rw [if_pos c2] at hk ⊢
        exact read_xpub_body_extend _ _ _ _ _ _ hk
      · rw [if_neg c2] at hk ⊢
        by_cases c3 : from_be_bytes buf = P.BIP84_PUB_VERSION
        · rw [if_pos c3] at hk ⊢
          exact read_xpub_body_extend _ _ _ _ _ _ hk
        · rw [if_neg c3] at hk ⊢
          cases hk

theorem read_xpriv_body_bad_padding (B : Backend) (hint : Hint) (d b : Nat)
    (par ib cc tail : List Nat)
    (hpar : par.length = 4) (hib : ib.length = 4) (hcc : cc.length = 32)
    (hb : b ≠ 0) :
    read_xpriv_body B hint (d :: (par ++ (ib ++ (cc ++ (b :: tail))))) =
      Except.error (Bip32Error.BadPadding b) := by
  unfold read_xpriv_body read_depth read_parent read_index read_chain_code
  rw [read_exact_cons]
  simp only []
  rw [read_exact_append 4 par _ hpar]
  simp only []
  rw [read_exact_append 4 ib _ hib]
  simp only []
  rw [read_exact_append 32 cc _ hcc]
  simp only []
  rw [read_exact_cons]
  simp only []
  rw [if_pos (by simpa using hb)]
  simp

theorem take4_to_be (n : Nat) (t : List Nat) :
    (to_be_bytes n ++ t).take 4 = to_be_bytes n :=
  List.take_left' rfl

/-- C1: For every valid extended key (`GenericXPriv` or `GenericXPub`) with any
hint and either built-in network parameter set, decoding the encoding returns a
key equal in all fields (depth, parent fingerprint, index, chain code, hint,
key bytes) to the original, both on the raw-bytes path (`read_xpriv`/`read_xpub`
after `write_xpriv`/`write_xpub`) and on the Base58Check path
(`xpriv_from_base58`/`xpub_from_base58` after `xpriv_to_base58`/
`xpub_to_base58`). -/
theorem c1_roundtrip (P : NetworkParams) (B : Backend)
    (kp : GenericXPriv) (ku : GenericXPub)
    (hP : P = Main ∨ P = Test)
    (hkp : ValidXPriv B kp) (hku : ValidXPub B ku) :
    read_xpriv P B (write_xpriv P kp) = Except.ok (kp, []) ∧
    read_xpub P B (write_xpub P ku) = Except.ok (ku, []) ∧
    xpriv_from_base58 P B (xpriv_to_base58 P kp) = Outcome.ok kp ∧
    xpub_from_base58 P B (xpub_to_base58 P ku) = Outcome.ok ku := by
  have hpv : PrivVersionsOk P := by
    unfold PrivVersionsOk
    rcases hP with h | h <;> subst h <;> decide
  have hbv : PubVersionsOk P := by
    unfold PubVersionsOk
    rcases hP with h | h <;> subst h <;> decide
  refine ⟨read_write_xpriv P B kp hpv hkp, read_write_xpub P B ku hbv hku, ?_, ?_⟩
  · obtain ⟨hdep, hpar, hparb, hidx, hcc, hccb, hkb, hkbb, hok⟩ := hkp
    unfold xpriv_from_base58 xpriv_to_base58
    rw [decode_encode_b58_check _ (write_xpriv_bytes_lt P kp hdep hparb hccb hkbb)]
    simp only []
    rw [read_write_xpriv P B kp hpv ⟨hdep, hpar, hparb, hidx, hcc, hccb, hkb, hkbb, hok⟩]
  · obtain ⟨hdep, hpar, hparb, hidx, hcc, hccb, hpk, hpkb, hok⟩ := hku
    unfold xpub_from_base58 xpub_to_base58
    rw [decode_encode_b58_check _ (write_xpub_bytes_lt P ku hdep hparb hccb hpkb)]
    simp only []
    rw [read_write_xpub P B ku hbv ⟨hdep, hpar, hparb, hidx, hcc, hccb, hpk, hpkb, hok⟩]

/-- Witness for C1 at the Mainnet parameter set, a permissive backend and
concrete keys. -/
theorem c1_roundtrip_witness :
    (Main = Main ∨ Main = Test) ∧ ValidXPriv B0 kp0 ∧ ValidXPub B0 ku0 ∧
    (read_xpriv Main B0 (write_xpriv Main kp0) = Except.ok (kp0, []) ∧
     read_xpub Main B0 (write_xpub Main ku0) = Except.ok (ku0, []) ∧
     xpriv_from_base58 Main B0 (xpriv_to_base58 Main kp0) = Outcome.ok kp0 ∧
     xpub_from_base58 Main B0 (xpub_to_base58 Main ku0) = Outcome.ok ku0) :=
  ⟨Or.inl rfl, by decide, by decide,
    c1_roundtrip Main B0 kp0 ku0 (Or.inl rfl) (by decide) (by decide)⟩

/-- C2 (code_bug): the spec requires that an input whose Base58 decoding yields
fewer than 4 bytes fail cleanly, guarding the length-4 subtraction; the code
computes `data.len() - 4` unguarded, so such inputs panic instead of returning
an error.  At the empty string (which Base58-decodes to 0 bytes) the code
panics. -/
theorem c2_short_input_panics : decode_b58_check [] = Outcome.panicked := by
  unfold decode_b58_check base58_decode decodeChars
  simp

/-- C3: a 4-byte version prefix matching none of the three version constants of
the active parameter set makes `read_xpriv` fail with
`BadXPrivVersionBytes(actual bytes)` and makes `read_xpub` fail with the
version-bytes error the code uses on the public path (the same
`BadXPrivVersionBytes` variant, carrying the actual bytes); neither silently
defaults to a hint. -/
theorem c3_unknown_version (P : NetworkParams) (B : Backend)
    (buf rest : List Nat) (h4 : buf.length = 4) :
    (from_be_bytes buf ≠ P.PRIV_VERSION → from_be_bytes buf ≠ P.BIP49_PRIV_VERSION →
      from_be_bytes buf ≠ P.BIP84_PRIV_VERSION →
      read_xpriv P B (buf ++ rest) =
        Except.error (Bip32Error.BadXPrivVersionBytes buf)) ∧
    (from_be_bytes buf ≠ P.PUB_VERSION → from_be_bytes buf ≠ P.BIP49_PUB_VERSION →
      from_be_bytes buf ≠ P.BIP84_PUB_VERSION →
      read_xpub P B (buf ++ rest) =
        Except.error (Bip32Error.BadXPrivVersionBytes buf)) := by
  constructor
  · intro h1 h2 h3
    unfold read_xpriv
    rw [read_exact_append 4 buf rest h4]
    simp only []
    rw [if_neg h1, if_neg h2, if_neg h3]
  · intro h1 h2 h3
    unfold read_xpub
    rw [read_exact_append 4 buf rest h4]
    simp only []
    rw [if_neg h1, if_neg h2, if_neg h3]

/-- Witness for C3: the all-zero version prefix on Mainnet. -/
theorem c3_unknown_version_witness :
    (([0, 0, 0, 0] : List Nat).length = 4) ∧
    read_xpriv Main B0 ([0, 0, 0, 0] ++ []) =
      Except.error (Bip32Error.BadXPrivVersionBytes [0, 0, 0, 0]) ∧
    read_xpub Main B0 ([0, 0, 0, 0] ++ []) =
      Except.error (Bip32Error.BadXPrivVersionBytes [0, 0, 0, 0]) :=
  ⟨by decide,
    (c3_unknown_version Main B0 [0, 0, 0, 0] [] (by decide)).1
      (by decide) (by decide) (by decide),
    (c3_unknown_version Main B0 [0, 0, 0, 0] [] (by decide)).2
      (by decide) (by decide) (by decide)⟩

/-- C4: encoding with the Mainnet parameter set writes exactly these 4-byte
big-endian version prefixes: Legacy 0x0488ADE4 (priv) / 0x0488B21E (pub),
Compatibility 0x049d7878 / 0x049d7cb2, SegWit 0x04b2430c / 0x04b24746, for
every key with that hint. -/
theorem c4_mainnet_version_bytes (kp : GenericXPriv) (ku : GenericXPub) :
    (kp.info.hint = Hint.Legacy →
      (write_xpriv Main kp).take 4 = [0x04, 0x88, 0xAD, 0xE4]) ∧
    (ku.info.hint = Hint.Legacy →
      (write_xpub Main ku).take 4 = [0x04, 0x88, 0xB2, 0x1E]) ∧
    (kp.info.hint = Hint.Compatibility →
      (write_xpriv Main kp).take 4 = [0x04, 0x9d, 0x78, 0x78]) ∧
    (ku.info.hint = Hint.Compatibility →
      (write_xpub Main ku).take 4 = [0x04, 0x9d, 0x7c, 0xb2]) ∧
    (kp.info.hint = Hint.SegWit →
      (write_xpriv Main kp).take 4 = [0x04, 0xb2, 0x43, 0x0c]) ∧
    (ku.info.hint = Hint.SegWit →
      (write_xpub Main ku).take 4 = [0x04, 0xb2, 0x47, 0x46]) := by
  refine ⟨?_, ?_, ?_, ?_, ?_, ?_⟩ <;> intro hh
  · unfold write_xpriv
    rw [hh]
    simp only [List.append_assoc]
    rw [take4_to_be]
    decide
  · unfold write_xpub
    rw [hh]
    simp only [List.append_assoc]
    rw [take4_to_be]
    decide
  · unfold write_xpriv
    rw [hh]
    simp only [List.append_assoc]
    rw [take4_to_be]
    decide
  · unfold write_xpub
    rw [hh]
    simp only [List.append_assoc]
    rw [take4_to_be]
    decide
  · unfold write_xpriv
    rw [hh]
    simp only [List.append_assoc]
    rw [take4_to_be]
    decide
  · unfold write_xpub
    rw [hh]
    simp only [List.append_assoc]
    rw [take4_to_be]
    decide

/-- Witness for C4 at concrete Legacy-hinted keys. -/
theorem c4_mainnet_version_bytes_witness :
    kp0.info.hint = Hint.Legacy ∧ ku0.info.hint = Hint.Legacy ∧
    (write_xpriv Main kp0).take 4 = [0x04, 0x88, 0xAD, 0xE4] ∧
    (write_xpub Main ku0).take 4 = [0x04, 0x88, 0xB2, 0x1E] :=
  ⟨rfl, rfl, (c4_mainnet_version_bytes kp0 ku0).1 rfl,
    (c4_mainnet_version_bytes kp0 ku0).2.1 rfl⟩

/-- C5: a 78-byte private-key buffer with a valid version prefix and
well-formed fixed-width fields but a non-zero byte `b` at offset 45 makes
`read_xpriv` fail with `BadPadding(b)`, where `b` is the actual byte read. -/
theorem c5_bad_padding (P : NetworkParams) (B : Backend) (d b : Nat)
    (ver par ib cc tail : List Nat)
    (hver : ver.length = 4)
    (hmatch : from_be_bytes ver = P.PRIV_VERSION ∨
      from_be_bytes ver = P.BIP49_PRIV_VERSION ∨
      from_be_bytes ver = P.BIP84_PRIV_VERSION)
    (hpar : par.length = 4) (hib : ib.length = 4) (hcc : cc.length = 32)
    (hb : b ≠ 0) :
    read_xpriv P B (ver ++ (d :: (par ++ (ib ++ (cc ++ (b :: tail)))))) =
      Except.error (Bip32Error.BadPadding b) := by
  unfold read_xpriv
  rw [read_exact_append 4 ver _ hver]
  simp only []
  by_cases c1 : from_be_bytes ver = P.PRIV_VERSION
  · rw [if_pos c1]
    exact read_xpriv_body_bad_padding B _ d b par ib cc tail hpar hib hcc hb
  · rw [if_neg c1]
    by_cases c2 : from_be_bytes ver = P.BIP49_PRIV_VERSION
    · rw [if_pos c2]
      exact read_xpriv_body_bad_padding B _ d b par ib cc tail hpar hib hcc hb
    · rw [if_neg c2]
      by_cases c3 : from_be_bytes ver = P.BIP84_PRIV_VERSION
      · rw [if_pos c3]
        exact read_xpriv_body_bad_padding B _ d b par ib cc tail hpar hib hcc hb
      · rcases hmatch with h | h | h <;> contradiction

/-- Witness for C5: Mainnet Legacy version prefix, padding byte 1 at offset
45. -/
theorem c5_bad_padding_witness :
    (([0x04, 0x88, 0xAD, 0xE4] : List Nat).length = 4 ∧
      from_be_bytes [0x04, 0x88, 0xAD, 0xE4] = Main.PRIV_VERSION ∧ (1 : Nat) ≠ 0) ∧
    read_xpriv Main B0
      ([0x04, 0x88, 0xAD, 0xE4] ++
        (0 :: ([0, 0, 0, 0] ++ ([0, 0, 0, 0] ++
          (List.replicate 32 0 ++ (1 :: List.replicate 32 1)))))) =
      Except.error (Bip32Error.BadPadding 1) :=
  ⟨⟨by decide, by decide, by decide⟩,
    c5_bad_padding Main B0 0 1 [0x04, 0x88, 0xAD, 0xE4] [0, 0, 0, 0] [0, 0, 0, 0]
      (List.replicate 32 0) (List.replicate 32 1) (by decide) (Or.inl (by decide))
      (by decide) (by decide) (by decide) (by decide)⟩

/-- C6: `write_xpriv` produces exactly 78 bytes, in order: 4-byte big-endian
version selected from the parameter set by the key's hint
(Legacy→PRIV_VERSION, Compatibility→BIP49_PRIV_VERSION,
SegWit→BIP84_PRIV_VERSION), then 1 byte depth, 4 bytes parent fingerprint,
4 bytes big-endian child index, 32 bytes chain code, a single 0x00 padding
byte, and the 32-byte private scalar. -/
theorem c6_write_xpriv_layout (P : NetworkParams) (k : GenericXPriv)
    (hpar : k.info.parent.length = 4) (hcc : k.info.chain_code.length = 32)
    (hkb : k.privkey.length = 32) :
    (write_xpriv P k).length = 78 ∧
    write_xpriv P k =
      to_be_bytes (match k.info.hint with
        | Hint.Legacy => P.PRIV_VERSION
        | Hint.Compatibility => P.BIP49_PRIV_VERSION
        | Hint.SegWit => P.BIP84_PRIV_VERSION) ++
      ([k.info.depth] ++ k.info.parent ++ to_be_bytes k.info.index ++
        k.info.chain_code ++ [0] ++ k.privkey) := by
  constructor
  · unfold write_xpriv write_key_details
    simp only [List.length_append, List.length_cons, List.length_nil, to_be_bytes,
      hpar, hcc, hkb]
  · unfold write_xpriv write_key_details
    simp [List.append_assoc]

/-- Witness for C6 at a concrete key. -/
theorem c6_write_xpriv_layout_witness :
    (kp0.info.parent.length = 4 ∧ kp0.info.chain_code.length = 32 ∧
      kp0.privkey.length = 32) ∧
    ((write_xpriv Main kp0).length = 78 ∧
      write_xpriv Main kp0 =
        to_be_bytes (match kp0.info.hint with
          | Hint.Legacy => Main.PRIV_VERSION
          | Hint.Compatibility => Main.BIP49_PRIV_VERSION
          | Hint.SegWit => Main.BIP84_PRIV_VERSION) ++
        ([kp0.info.depth] ++ kp0.info.parent ++ to_be_bytes kp0.info.index ++
          kp0.info.chain_code ++ [0] ++ kp0.privkey)) :=
  ⟨⟨by decide, by decide, by decide⟩,
    c6_write_xpriv_layout Main kp0 (by decide) (by decide) (by decide)⟩

/-- C7: on a buffer whose body after the first 4 bytes is a well-formed
extended-key body, `read_xpriv_without_network` succeeds for arbitrary version
bytes (any network, any purpose, or garbage) and the resulting hint is always
`Legacy`; symmetrically for `read_xpub_without_network`. -/
theorem c7_without_network (B : Backend) (d : Nat) (v par ib cc kb pk : List Nat)
    (hv : v.length = 4) (hpar : par.length = 4) (hib : ib.length = 4)
    (hcc : cc.length = 32) (hkb : kb.length = 32) (hpk : pk.length = 33)
    (hok : B.privkeyOk kb = true) (hok2 : B.pubkeyOk pk = true) :
    read_xpriv_without_network B (v ++ (d :: (par ++ (ib ++ (cc ++ (0 :: kb)))))) =
      Except.ok (⟨⟨d, par, from_be_bytes ib, cc, Hint.Legacy⟩, kb⟩, []) ∧
    read_xpub_without_network B (v ++ (d :: (par ++ (ib ++ (cc ++ pk))))) =
      Except.ok (⟨⟨d, par, from_be_bytes ib, cc, Hint.Legacy⟩, pk⟩, []) := by
  constructor
  · unfold read_xpriv_without_network
    rw [read_exact_append 4 v _ hv]
    simp only []
    exact read_xpriv_body_exact B Hint.Legacy d par ib cc kb hpar hib hcc hkb hok
  · unfold read_xpub_without_network
    rw [read_exact_append 4 v _ hv]
    simp only []
    exact read_xpub_body_exact B Hint.Legacy d par ib cc pk hpar hib hcc hpk hok2

/-- Witness for C7 with garbage version bytes. -/
theorem c7_without_network_witness :
    (([0xDE, 0xAD, 0xBE, 0xEF] : List Nat).length = 4) ∧
    read_xpriv_without_network B0
      ([0xDE, 0xAD, 0xBE, 0xEF] ++ (3 :: ([1, 2, 3, 4] ++ ([0, 0, 0, 7] ++
        (List.replicate 32 5 ++ (0 :: List.replicate 32 6)))))) =
      Except.ok (⟨⟨3, [1, 2, 3, 4], from_be_bytes [0, 0, 0, 7],
        List.replicate 32 5, Hint.Legacy⟩, List.replicate 32 6⟩, []) ∧
    read_xpub_without_network B0
      ([0xDE, 0xAD, 0xBE, 0xEF] ++ (3 :: ([1, 2, 3, 4] ++ ([0, 0, 0, 7] ++
        (List.replicate 32 5 ++ List.replicate 33 8))))) =
      Except.ok (⟨⟨3, [1, 2, 3, 4], from_be_bytes [0, 0, 0, 7],
        List.replicate 32 5, Hint.Legacy⟩, List.replicate 33 8⟩, []) :=
  ⟨by decide,
    (c7_without_network B0 3 [0xDE, 0xAD, 0xBE, 0xEF] [1, 2, 3, 4] [0, 0, 0, 7]
      (List.replicate 32 5) (List.replicate 32 6) (List.replicate 33 8)
      (by decide) (by decide) (by decide) (by decide) (by decide) (by decide)
      (by decide) (by decide)).1,
    (c7_without_network B0 3 [0xDE, 0xAD, 0xBE, 0xEF] [1, 2, 3, 4] [0, 0, 0, 7]
      (List.replicate 32 5) (List.replicate 32 6) (List.replicate 33 8)
      (by decide) (by decide) (by decide) (by decide) (by decide) (by decide)
      (by decide) (by decide)).2⟩

/-- C8: for every byte vector `v` (including the empty vector),
`decode_b58_check (encode_b58_check v)` succeeds and returns exactly `v`: the
checksum codec is a left-invertible encoding for arbitrary payloads, not only
78-byte key bodies. -/
theorem c8_b58check_roundtrip (v : List Nat) (hv : ∀ b ∈ v, b < 256) :
    decode_b58_check (encode_b58_check v) = Outcome.ok v :=
  decode_encode_b58_check v hv

/-- Witness for C8 at the empty vector. -/
theorem c8_b58check_roundtrip_witness :
    (∀ b ∈ ([] : List Nat), b < 256) ∧
    decode_b58_check (encode_b58_check []) = Outcome.ok [] :=
  ⟨by decide, c8_b58check_roundtrip [] (by decide)⟩

/-- C9: neither `read_xpriv` nor `read_xpub` requires the input to be exactly
78 bytes: for a buffer that parses completely and any byte suffix, reading the
buffer with the suffix appended succeeds with the same key, silently leaving
the trailing bytes unread, and a Base58Check string whose payload exceeds 78
bytes still decodes through `xpriv_from_base58`. -/
theorem c9_trailing_bytes_ignored (P : NetworkParams) (B : Backend)
    (b s bu su : List Nat) (k : GenericXPriv) (ku : GenericXPub)
    (hb : read_xpriv P B b = Except.ok (k, []))
    (hbu : read_xpub P B bu = Except.ok (ku, []))
    (hbytes : ∀ x ∈ b ++ s, x < 256) :
    read_xpriv P B (b ++ s) = Except.ok (k, s) ∧
    read_xpub P B (bu ++ su) = Except.ok (ku, su) ∧
    xpriv_from_base58 P B (encode_b58_check (b ++ s)) = Outcome.ok k := by
  have hext := read_xpriv_extend P B b s k [] hb
  rw [List.nil_append] at hext
  have hextu := read_xpub_extend P B bu su ku [] hbu
  rw [List.nil_append] at hextu
  refine ⟨hext, hextu, ?_⟩
  unfold xpriv_from_base58
  rw [decode_encode_b58_check _ hbytes]
  simp only []
  rw [hext]

/-- Witness for C9: a full Mainnet body followed by two junk bytes. -/
theorem c9_trailing_bytes_ignored_witness :
    (read_xpriv Main B0 (write_xpriv Main kp0) = Except.ok (kp0, []) ∧
      read_xpub Main B0 (write_xpub Main ku0) = Except.ok (ku0, []) ∧
      ∀ x ∈ write_xpriv Main kp0 ++ [7, 7], x < 256) ∧
    (read_xpriv Main B0 (write_xpriv Main kp0 ++ [7, 7]) = Except.ok (kp0, [7, 7]) ∧
      read_xpub Main B0 (write_xpub Main ku0 ++ [9]) = Except.ok (ku0, [9]) ∧
      xpriv_from_base58 Main B0 (encode_b58_check (write_xpriv Main kp0 ++ [7, 7])) =
        Outcome.ok kp0) :=
  ⟨⟨by decide, by decide, by decide⟩,
    c9_trailing_bytes_ignored Main B0 (write_xpriv Main kp0) [7, 7]
      (write_xpub Main ku0) [9] kp0 ku0 (by decide) (by decide) (by decide)⟩

/-- C10: `read_xpriv_without_network` relaxes only the version-byte
validation: it still consumes exactly 4 version bytes (so it agrees with
`read_xpriv` on a body preceded by a matching version), still fails with
`BadPadding(b)` when the byte at offset 45 is a non-zero `b`, and still fails
on a truncated buffer. -/
theorem c10_without_network_strict (P : NetworkParams) (B : Backend)
    (v rest : List Nat) (hv : v.length = 4) :
    read_xpriv_without_network B (v ++ rest) = read_xpriv_body B Hint.Legacy rest ∧
    (∀ v2 : List Nat, v2.length = 4 → from_be_bytes v2 = P.PRIV_VERSION →
      read_xpriv P B (v2 ++ rest) = read_xpriv_without_network B (v ++ rest)) ∧
    (∀ (d b : Nat) (par ib cc tail : List Nat),
      par.length = 4 → ib.length = 4 → cc.length = 32 → b ≠ 0 →
      rest = d :: (par ++ (ib ++ (cc ++ (b :: tail)))) →
      read_xpriv_without_network B (v ++ rest) =
        Except.error (Bip32Error.BadPadding b)) ∧
    (rest.length < 74 →
      ∀ out, read_xpriv_without_network B (v ++ rest) ≠ Except.ok out) := by
  have hmain : read_xpriv_without_network B (v ++ rest) =
      read_xpriv_body B Hint.Legacy rest := by
    unfold read_xpriv_without_network
    rw [read_exact_append 4 v _ hv]
  refine ⟨hmain, ?_, ?_, ?_⟩
  · intro v2 hv2 hver
    unfold read_xpriv
    rw [read_exact_append 4 v2 _ hv2]
    simp only []
    rw [if_pos hver, hmain]
  · intro d b par ib cc tail hpar hib hcc hb hrest
    rw [hmain, hrest]
    exact read_xpriv_body_bad_padding B Hint.Legacy d b par ib cc tail hpar hib hcc hb
  · intro hlen out hok
    obtain ⟨k, r⟩ := out
    rw [hmain] at hok
    have := read_xpriv_body_consumes B Hint.Legacy rest k r hok
    omega

/-- Witness for C10: garbage version bytes and a 70-byte (truncated) rest. -/
theorem c10_without_network_strict_witness :
    (([9, 9, 9, 9] : List Nat).length = 4 ∧
      (List.replicate 70 (0 : Nat)).length < 74) ∧
    read_xpriv_without_network B0 ([9, 9, 9, 9] ++ List.replicate 70 0) ≠
      Except.ok (kp0, []) :=
  ⟨⟨by decide, by decide⟩,
    (c10_without_network_strict Main B0 [9, 9, 9, 9] (List.replicate 70 0)
      (by decide)).2.2.2 (by decide) (kp0, [])⟩

end Bip32
